import Mathlib

/-
Shallow embedding of the `simulation` package of ts2-sim-server
(src/simulation/simulation.go), together with theorems settling the
claims about its specification.

Modelling conventions:
* Go maps become association lists; map assignment is `mapInsert`
  (replace the binding when the key is present, append otherwise).
  Go map iteration order is unspecified, so loop lemmas are stated for
  an arbitrary list order.
* `time.Time` and `time.Duration` become `Int` (nanoseconds); `t.Sub u < 0`
  becomes `t - u < 0` and `t.Add d` becomes `t + d`.
* Channels and the ticker are tracked only through their nil-ness, which is
  all `Start`'s precondition check consults; a Go `panic` becomes an
  explicit `StartResult.panicked` outcome.
* `json.RawMessage` inputs are abstracted into `RawTrackEntry`: whether the
  generic aux decode succeeds, the raw bytes of the `__type__` field
  (quotes included, as `string(rawItem["__type__"])` yields), whether the
  decode into the selected concrete shape succeeds, and the decoded payload.
* Error strings keep the fixed text of the corresponding `fmt.Errorf`
  format; the interpolated raw JSON bytes are not modelled.
-/

namespace TS2

/-- Go `time.Time`, as nanoseconds since an epoch. -/
abbrev Time := Int

/-- Go `time.Duration`, in nanoseconds. -/
abbrev Duration := Int

/-- const timeStep = 500 * time.Millisecond (in nanoseconds). -/
def timeStep : Duration := 500 * 1000000

/-- A 2-D coordinate, the value returned by the `Origin()`, `End()` and
`Reverse()` accessors of track items (defined outside simulation.go). -/
structure Point where
  x : Int
  y : Int
deriving DecidableEq, Repr

/-- The track-item kind tags consulted by `checkTrackItemsLinks`
(the Go constants `lineItem`, ..., `place`). -/
inductive TiType where
  | lineItem
  | invisibleLinkItem
  | endItem
  | platformItem
  | textItem
  | pointsItem
  | signalItem
  | place
deriving DecidableEq, Repr

/-- A track item, abstracted to exactly the data simulation.go consults:
its kind tag `Type()`, whether `NextItem()`, `PreviousItem()` and
`ReverseItem()` are non-nil, the connection points the accessors
`Origin()`, `End()` and `Reverse()` return, and the id and
simulation back-reference assigned during decode. -/
structure TrackItem where
  tiType : TiType
  hasNext : Bool
  hasPrevious : Bool
  hasReverse : Bool
  originPoint : Point
  endPoint : Point
  reversePoint : Point
  tiID : Int := 0
  simSet : Bool := false
deriving DecidableEq, Repr

/-- ItemNotLinkedAtError: names the offending item and the connection
point that failed to resolve. -/
structure ItemNotLinkedAtError where
  item : TrackItem
  pt : Point
deriving DecidableEq, Repr

/-- The switch body of `checkTrackItemsLinks` for a single item,
fallthrough included: points check reverse, then (with line, invisible
link and signal) next, then (with end) previous; place, platform and
text items are skipped. -/
def checkItemLinks (ti : TrackItem) : Option ItemNotLinkedAtError :=
  match ti.tiType with
  | .place | .platformItem | .textItem => none
  | .pointsItem =>
    if !ti.hasReverse then some ⟨ti, ti.reversePoint⟩
    else if !ti.hasNext then some ⟨ti, ti.endPoint⟩
    else if !ti.hasPrevious then some ⟨ti, ti.originPoint⟩
    else none
  | .lineItem | .invisibleLinkItem | .signalItem =>
    if !ti.hasNext then some ⟨ti, ti.endPoint⟩
    else if !ti.hasPrevious then some ⟨ti, ti.originPoint⟩
    else none
  | .endItem =>
    if !ti.hasPrevious then some ⟨ti, ti.originPoint⟩
    else none

/-- checkTrackItemsLinks: iterate the track items (in some map order)
and return the first link error met, or nil. -/
def checkTrackItemsLinks : List TrackItem → Option ItemNotLinkedAtError
  | [] => none
  | ti :: rest =>
    match checkItemLinks ti with
    | some e => some e
    | none => checkTrackItemsLinks rest

/-- Value of a big-endian decimal digit list. -/
def digitsToNat (cs : List Char) : Nat :=
  cs.foldl (fun acc c => acc * 10 + (c.toNat - 48)) 0

/-- A non-empty all-digit character list, or failure. -/
def decDigits? (cs : List Char) : Option Nat :=
  if cs ≠ [] ∧ cs.all (·.isDigit) then some (digitsToNat cs) else none

/-- Go `strconv.Atoi`: an optional single sign, then one or more decimal
digits and nothing else, with the result required to fit in int64. -/
def atoi? (s : String) : Option Int :=
  match s.data with
  | '+' :: rest =>
    (decDigits? rest).bind fun n => if n ≤ 2 ^ 63 - 1 then some (n : Int) else none
  | '-' :: rest =>
    (decDigits? rest).bind fun n => if n ≤ 2 ^ 63 then some (-(n : Int)) else none
  | cs =>
    (decDigits? cs).bind fun n => if n ≤ 2 ^ 63 - 1 then some (n : Int) else none

/-- Go `strings.Trim(s, "\"")`: remove all leading and trailing
double-quote characters. -/
def trimQuoteChars (s : String) : String :=
  String.mk (((s.data.dropWhile (· = '"')).reverse.dropWhile (· = '"')).reverse)

/-- Map assignment `m[k] = v` on an association list: replace the binding
in place when the key is present, append otherwise. -/
def mapInsert {α β : Type} [DecidableEq α] (m : List (α × β)) (k : α) (v : β) :
    List (α × β) :=
  if m.any (fun p => p.1 = k) then
    m.map (fun p => if p.1 = k then (k, v) else p)
  else m ++ [(k, v)]

/-- A Place record; only its PlaceCode is consulted by simulation.go. -/
structure Place where
  PlaceCode : String
deriving DecidableEq, Repr

/-- What UnmarshalJSON extracts from one entry value of
rawSim.TrackItems (a `json.RawMessage`): whether `json.Unmarshal` into
the generic `auxItem` map succeeds, the raw bytes of the `__type__`
field when present (JSON quotes included), whether `json.Unmarshal`
into the concrete shape selected by the discriminator succeeds, the
link/point payload the shape would carry, and its PlaceCode when the
shape is Place. -/
structure RawTrackEntry where
  auxOk : Bool
  typeField : Option String
  decodeOk : Bool
  hasNext : Bool
  hasPrevious : Bool
  hasReverse : Bool
  originPoint : Point
  endPoint : Point
  reversePoint : Point
  placeCode : String
deriving DecidableEq, Repr

/-- The track-item value an entry decodes to for a given kind, before
`setSimulation` and `setID` run. -/
def RawTrackEntry.toItem (e : RawTrackEntry) (k : TiType) : TrackItem :=
  { tiType := k
    hasNext := e.hasNext
    hasPrevious := e.hasPrevious
    hasReverse := e.hasReverse
    originPoint := e.originPoint
    endPoint := e.endPoint
    reversePoint := e.reversePoint }

/-- The errors UnmarshalJSON can return: a wrapped decode error, or the
undecorated ItemNotLinkedAtError from network validation. -/
inductive SimError where
  | decodeError (msg : String)
  | notLinked (e : ItemNotLinkedAtError)
deriving DecidableEq, Repr

/-- The raw `__type__` bytes of the seven switch cases that decode a
track-item variant. -/
def tiTypeTag? (s : String) : Option TiType :=
  if s = "\"LineItem\"" then some .lineItem
  else if s = "\"InvisibleLinkItem\"" then some .invisibleLinkItem
  else if s = "\"EndItem\"" then some .endItem
  else if s = "\"PlatformItem\"" then some .platformItem
  else if s = "\"TextItem\"" then some .textItem
  else if s = "\"PointsItem\"" then some .pointsItem
  else if s = "\"SignalItem\"" then some .signalItem
  else none

/-- The eight `__type__` values the switch recognizes. -/
def recognizedTags : List String :=
  ["\"LineItem\"", "\"InvisibleLinkItem\"", "\"EndItem\"", "\"PlatformItem\"",
   "\"TextItem\"", "\"PointsItem\"", "\"SignalItem\"", "\"Place\""]

/-- State built by the track-items loop: sim.TrackItems and sim.Places. -/
structure TrackItemsState where
  TrackItems : List (Int × TrackItem)
  Places : List (String × Place)
deriving DecidableEq, Repr

/-- The `unmarshalItem` closure: decode the entry into the selected
shape, parse the quote-trimmed map key as an integer id, set the
simulation back-reference and the id, and store the item. Either
failure returns an error value — which every call site in the Go
source then discards. -/
def unmarshalItem (st : TrackItemsState) (tiId : String) (e : RawTrackEntry)
    (kind : TiType) : Except SimError TrackItemsState :=
  if !e.decodeOk then
    .error (.decodeError ("unable to decode " ++ (e.typeField.getD "")))
  else
    match atoi? (trimQuoteChars tiId) with
    | none => .error (.decodeError "unable to convert")
    | some n =>
      .ok { st with
        TrackItems :=
          mapInsert st.TrackItems n { e.toItem kind with tiID := n, simSet := true } }

/-- The body of the track-items loop for one entry `(tiId, e)`: read the
entry into the aux map, dispatch on the raw `__type__` bytes (a missing
field reads as the empty string); the seven track-item cases call
`unmarshalItem` and ignore its returned error; the Place case decodes
the place and stores it under its own PlaceCode; any other tag aborts
with the unknown-type error. -/
def trackItemStep (st : TrackItemsState) (tiId : String) (e : RawTrackEntry) :
    Except SimError TrackItemsState :=
  if !e.auxOk then .error (.decodeError "unable to read TrackItem")
  else
    let tiType := e.typeField.getD ""
    match tiTypeTag? tiType with
    | some kind =>
      match unmarshalItem st tiId e kind with
      | .ok st' => .ok st'
      | .error _ => .ok st
    | none =>
      if tiType = "\"Place\"" then
        if !e.decodeOk then .error (.decodeError "unable to decode Place")
        else .ok { st with Places := mapInsert st.Places e.placeCode ⟨e.placeCode⟩ }
      else .error (.decodeError ("unknown TrackItem type: " ++ tiType))

/-- The track-items loop of UnmarshalJSON over the entries of
rawSim.TrackItems (in some map order). -/
def decodeTrackItems (st : TrackItemsState) :
    List (String × RawTrackEntry) → Except SimError TrackItemsState
  | [] => .ok st
  | (tiId, e) :: rest =>
    match trackItemStep st tiId e with
    | .error err => .error err
    | .ok st' => decodeTrackItems st' rest

/-- A Route, abstracted to the two side effects the loop applies to it:
the simulation back-reference and its post-decode initialization. -/
structure Route where
  simSet : Bool := false
  initialized : Bool := false
deriving DecidableEq, Repr

/-- route.setSimulation(sim). -/
def Route.setSimulation (r : Route) : Route := { r with simSet := true }

/-- route.initialize() (body defined outside simulation.go; its execution
is tracked by the `initialized` flag). -/
def Route.Initialize (r : Route) : Route := { r with initialized := true }

/-- The routes loop of UnmarshalJSON: for each entry, mutate the route
(back-reference, then initialization), then parse the key with
`strconv.Atoi` (no quote trimming here); a parse failure returns the
invalid-routeNum error. The first component records every route value
mutated by the loop, including one mutated on a failing iteration. -/
def decodeRoutes (acc : List (Int × Route)) (effs : List Route) :
    List (String × Route) → List Route × Except SimError (List (Int × Route))
  | [] => (effs, .ok acc)
  | (num, route) :: rest =>
    let route' := Route.Initialize route.setSimulation
    match atoi? num with
    | none =>
      (effs ++ [route'],
       .error (.decodeError ("routeNum : `" ++ num ++ "` is invalid")))
    | some n => decodeRoutes (mapInsert acc n route') (effs ++ [route']) rest

/-- A scheduled line stop of a service; only its departure time is
consulted by simulation.go. -/
structure Line where
  ScheduledDepartureTime : Time
deriving DecidableEq, Repr

/-- A Service: its ordered line stops and its back-reference flag. -/
structure Service where
  Lines : List Line
  simSet : Bool := false
deriving DecidableEq, Repr

def Service.setSimulation (s : Service) : Service := { s with simSet := true }

/-- A TrainType, abstracted to its back-reference flag. -/
structure TrainType where
  simSet : Bool := false
deriving DecidableEq, Repr

def TrainType.setSimulation (tt : TrainType) : TrainType := { tt with simSet := true }

/-- A Train: its owning service's code and its back-reference flag. -/
structure Train where
  ServiceCode : String
  simSet : Bool := false
deriving DecidableEq, Repr

def Train.setSimulation (t : Train) : Train := { t with simSet := true }

/-- Modelled from the spec: the `Train.Service()` accessor (its body is
outside simulation.go) resolves the train's owning service by its
service code in the simulation's service mapping ("references its
owning service by code"). A missing service would be a nil dereference
in Go; the default here keeps the function total. -/
def Train.Service (services : List (String × Service)) (t : Train) : Service :=
  (((services.find? (fun p => p.1 = t.ServiceCode))).map Prod.snd).getD { Lines := [] }

/-- The comparator closure passed to sort.Slice over sim.Trains:
both services without stops compare by service code; a train whose
service has no stops sorts after one whose service has stops; otherwise
the first stops' scheduled departure times compare (`a.Sub b < 0`). -/
def trainLess (services : List (String × Service)) (a b : Train) : Bool :=
  match (a.Service services).Lines, (b.Service services).Lines with
  | [], [] => decide (a.ServiceCode < b.ServiceCode)
  | [], _ :: _ => false
  | _ :: _, [] => true
  | la :: _, lb :: _ =>
    decide (la.ScheduledDepartureTime - lb.ScheduledDepartureTime < 0)

/-- Insert into a sorted list, a stand-in comparison sort for
sort.Slice (whose algorithm the spec leaves unspecified). -/
def insertByLess {α : Type} (less : α → α → Bool) (x : α) : List α → List α
  | [] => [x]
  | y :: ys => if less x y then x :: y :: ys else y :: insertByLess less x ys

/-- Sort by a comparator, a stand-in for sort.Slice. -/
def sortByLess {α : Type} (less : α → α → Bool) : List α → List α
  | [] => []
  | x :: xs => insertByLess less x (sortByLess less xs)

/-- The signal library; its contents are defined outside simulation.go
and no claim consults them. -/
structure SignalLibrary where
  libData : String := ""
deriving DecidableEq, Repr

/-- Message categories; simulation.go only uses softwareMsg. -/
inductive MsgType where
  | softwareMsg
deriving DecidableEq, Repr

/-- The MessageLogger: its appended messages and back-reference flag. -/
structure MessageLogger where
  messages : List (String × MsgType) := []
  simSet : Bool := false
deriving DecidableEq, Repr

/-- MessageLogger.addMessage appends a notice with its category. -/
def MessageLogger.addMessage (ml : MessageLogger) (msg : String) (k : MsgType) :
    MessageLogger :=
  { ml with messages := ml.messages ++ [(msg, k)] }

def MessageLogger.setSimulation (ml : MessageLogger) : MessageLogger :=
  { ml with simSet := true }

/-- The options block; simulation.go consults only CurrentTime. -/
structure options where
  CurrentTime : Time
deriving DecidableEq, Repr

/-- The Simulation aggregate. `EventChan`, `stopChan` and `clockTicker`
record whether the corresponding channel or ticker is allocated
(non-nil). -/
structure Simulation where
  SignalLib : SignalLibrary
  TrackItems : List (Int × TrackItem)
  Places : List (String × Place)
  Options : options
  Routes : List (Int × Route)
  TrainTypes : List (String × TrainType)
  Services : List (String × Service)
  Trains : List Train
  MessageLogger : MessageLogger
  EventChan : Bool
  clockTicker : Bool
  stopChan : Bool
deriving DecidableEq, Repr

/-- The aux structure UnmarshalJSON decodes the document into; this
embedding starts from a successfully decoded envelope. -/
structure RawSim where
  TrackItems : List (String × RawTrackEntry)
  Options : options
  SignalLib : SignalLibrary
  Routes : List (String × Route)
  TrainTypes : List (String × TrainType)
  Services : List (String × Service)
  Trains : List Train
  MessageLogger : MessageLogger

/-- Simulation.UnmarshalJSON after envelope decode: run the track-items
loop, validate the network, assign options and the signal library, run
the routes loop, wire the back-references of train types, services and
trains, sort the trains with `trainLess`, and wire the message logger. -/
def Simulation.UnmarshalJSON (raw : RawSim) : Except SimError Simulation :=
  match decodeTrackItems ⟨[], []⟩ raw.TrackItems with
  | .error e => .error e
  | .ok st =>
    match checkTrackItemsLinks (st.TrackItems.map Prod.snd) with
    | some e => .error (.notLinked e)
    | none =>
      match (decodeRoutes [] [] raw.Routes).2 with
      | .error e => .error e
      | .ok routes =>
        let services := raw.Services.map (fun p => (p.1, p.2.setSimulation))
        .ok
          { SignalLib := raw.SignalLib
            TrackItems := st.TrackItems
            Places := st.Places
            Options := raw.Options
            Routes := routes
            TrainTypes := raw.TrainTypes.map (fun p => (p.1, p.2.setSimulation))
            Services := services
            Trains := sortByLess (trainLess services) (raw.Trains.map Train.setSimulation)
            MessageLogger := raw.MessageLogger.setSimulation
            EventChan := false
            clockTicker := false
            stopChan := false }

/-- Simulation.Initialize: append the initializing notice and allocate
the event and stop channels (its Go error return is always nil). -/
def Simulation.Initialize (sim : Simulation) : Simulation :=
  { sim with
    MessageLogger := sim.MessageLogger.addMessage "Simulation initializing" .softwareMsg
    EventChan := true
    stopChan := true }

/-- Outcome of Simulation.Start: a Go panic halting the process, or the
started simulation. -/
inductive StartResult where
  | panicked (msg : String)
  | started (sim : Simulation)
deriving DecidableEq, Repr

def StartResult.isPanic : StartResult → Bool
  | .panicked _ => true
  | .started _ => false

/-- Simulation.Start: panic when either channel is nil; otherwise create
the clock ticker and launch the run loop. -/
def Simulation.Start (sim : Simulation) : StartResult :=
  if !sim.stopChan || !sim.EventChan then
    .panicked "You must call Initialize before starting the simulation"
  else
    .started { sim with clockTicker := true }

/-- Simulation.increaseTime: add the step to Options.CurrentTime (the
lock around the read-add-write is elided in this sequential embedding). -/
def Simulation.increaseTime (sim : Simulation) (step : Duration) : Simulation :=
  { sim with Options := { sim.Options with CurrentTime := sim.Options.CurrentTime + step } }

/-- The kinds of events; simulation.go only emits ClockEvent. -/
inductive EventType where
  | ClockEvent
deriving DecidableEq, Repr

/-- An Event: a kind and its payload, here the current time. -/
structure Event where
  eventKind : EventType
  payload : Time
deriving DecidableEq, Repr

/-- The ticker branch of the run loop: `sim.increaseTime(timeStep)`, then
`sim.sendEvent(&Event{ClockEvent, sim.Options.CurrentTime})`. Returns
the new state and the event value handed to sendEvent. -/
def Simulation.runTick (sim : Simulation) : Simulation × Event :=
  let sim' := sim.increaseTime timeStep
  (sim', { eventKind := .ClockEvent, payload := sim'.Options.CurrentTime })

/-- C5: Start is a fatal precondition violation (a panic, not a returned
error) exactly when the stop channel or the event channel is still nil,
and running Start on an initialized simulation never panics. -/
theorem start_panics_iff_uninitialized (sim : Simulation) :
    sim.Start.isPanic = (!sim.stopChan || !sim.EventChan) ∧
    sim.Initialize.Start.isPanic = false := by
  constructor
  · cases hs : sim.stopChan <;> cases he : sim.EventChan <;>
      simp [Simulation.Start, StartResult.isPanic, hs, he]
  · simp [Simulation.Initialize, Simulation.Start, StartResult.isPanic]

/-- C6: on a timer tick the run loop advances CurrentTime by exactly the
fixed 500 ms step, changes nothing else, and hands sendEvent a clock-tick
event whose payload is the new (post-advance) current time. -/
theorem runTick_advances_and_emits (sim : Simulation) :
    sim.runTick.1 =
      { sim with Options := { sim.Options with
          CurrentTime := sim.Options.CurrentTime + timeStep } } ∧
    sim.runTick.2 =
      { eventKind := EventType.ClockEvent,
        payload := sim.Options.CurrentTime + timeStep } ∧
    timeStep = 500 * 1000000 :=
  ⟨rfl, rfl, rfl⟩

/-- C3: the train-order comparator: with both stop lists empty it compares
service codes lexicographically; a train whose service has no stops sorts
after one whose service has stops; otherwise it compares the scheduled
departure times of the services' first line stops. -/
theorem trainLess_matches_spec (services : List (String × Service)) (a b : Train) :
    ((a.Service services).Lines = [] → (b.Service services).Lines = [] →
      (trainLess services a b = true ↔ a.ServiceCode < b.ServiceCode)) ∧
    ((a.Service services).Lines = [] → (b.Service services).Lines ≠ [] →
      trainLess services a b = false) ∧
    ((a.Service services).Lines ≠ [] → (b.Service services).Lines = [] →
      trainLess services a b = true) ∧
    (∀ la ras lb rbs, (a.Service services).Lines = la :: ras →
      (b.Service services).Lines = lb :: rbs →
      (trainLess services a b = true ↔
        la.ScheduledDepartureTime < lb.ScheduledDepartureTime)) := by
  refine ⟨?_, ?_, ?_, ?_⟩
  · intro ha hb
    simp [trainLess, ha, hb]
  · intro ha hb
    obtain ⟨lb, rbs, hb'⟩ := List.exists_cons_of_ne_nil hb
    simp [trainLess, ha, hb']
  · intro ha hb
    obtain ⟨la, ras, ha'⟩ := List.exists_cons_of_ne_nil ha
    simp [trainLess, ha', hb]
  · intro la ras lb rbs ha hb
    simp [trainLess, ha, hb, sub_neg]

/-- Services for the comparator witness: REG1 has a scheduled stop, ICE1
has none. -/
def witnessServices : List (String × Service) :=
  [("REG1", { Lines := [⟨28800000000000⟩] }), ("ICE1", { Lines := [] })]

/-- Witness for C3: a train with a scheduled stop sorts before one whose
service has no stops. -/
theorem trainLess_matches_spec_witness :
    trainLess witnessServices ⟨"REG1", false⟩ ⟨"ICE1", false⟩ = true :=
  (trainLess_matches_spec witnessServices ⟨"REG1", false⟩ ⟨"ICE1", false⟩).2.2.1
    (by decide) (by decide)

/-- A LineItem entry whose substructure fails to decode. -/
def lineEntryBadSub : RawTrackEntry :=
  { auxOk := true, typeField := some "\"LineItem\"", decodeOk := false
    hasNext := true, hasPrevious := true, hasReverse := false
    originPoint := ⟨0, 0⟩, endPoint := ⟨1, 0⟩, reversePoint := ⟨0, 0⟩
    placeCode := "" }

/-- A well-formed LineItem entry (its map key will not parse). -/
def lineEntryBadKey : RawTrackEntry :=
  { auxOk := true, typeField := some "\"LineItem\"", decodeOk := true
    hasNext := true, hasPrevious := true, hasReverse := false
    originPoint := ⟨0, 0⟩, endPoint := ⟨1, 0⟩, reversePoint := ⟨0, 0⟩
    placeCode := "" }

/-- A scenario whose only track item sits under the unparseable key "abc". -/
def rawSimBadKey : RawSim :=
  { TrackItems := [("abc", lineEntryBadKey)], Options := ⟨0⟩, SignalLib := {}
    Routes := [], TrainTypes := [], Services := [], Trains := []
    MessageLogger := {} }

/-- C1: the errors built inside unmarshalItem are discarded at every call
site: a failing substructure decode and a failing key parse each leave the
state unchanged and let the loop continue, and a whole decode containing
only such an entry succeeds with the item silently skipped. -/
theorem trackItem_errors_silently_dropped :
    decodeTrackItems ⟨[], []⟩ [("1", lineEntryBadSub)] = .ok ⟨[], []⟩ ∧
    decodeTrackItems ⟨[], []⟩ [("abc", lineEntryBadKey)] = .ok ⟨[], []⟩ ∧
    ∃ sim, Simulation.UnmarshalJSON rawSimBadKey = .ok sim ∧ sim.TrackItems = [] :=
  ⟨rfl, rfl, ⟨_, rfl, rfl⟩⟩

/-- C7: a Place entry is decoded into the place mapping under its own
PlaceCode, leaves the track-item mapping untouched, and its map key is
never consulted (no integer id is parsed from it). -/
theorem place_entries_stored_by_code (st : TrackItemsState) (tiId tiId' : String)
    (e : RawTrackEntry) (haux : e.auxOk = true)
    (htype : e.typeField = some "\"Place\"") (hdec : e.decodeOk = true) :
    trackItemStep st tiId e =
      .ok { TrackItems := st.TrackItems,
            Places := mapInsert st.Places e.placeCode ⟨e.placeCode⟩ } ∧
    trackItemStep st tiId' e = trackItemStep st tiId e := by
  have h1 : ∀ s, trackItemStep st s e =
      .ok { TrackItems := st.TrackItems,
            Places := mapInsert st.Places e.placeCode ⟨e.placeCode⟩ } := by
    intro s
    simp [trackItemStep, haux, htype, hdec, tiTypeTag?]
  exact ⟨h1 tiId, (h1 tiId').trans (h1 tiId).symm⟩

/-- A Place entry for the C7 witness. -/
def placeEntry : RawTrackEntry :=
  { auxOk := true, typeField := some "\"Place\"", decodeOk := true
    hasNext := false, hasPrevious := false, hasReverse := false
    originPoint := ⟨0, 0⟩, endPoint := ⟨0, 0⟩, reversePoint := ⟨0, 0⟩
    placeCode := "LFT" }

/-- Witness for C7: a Place entry under key "7" lands in the place mapping
under "LFT" and adds nothing to the track items. -/
theorem place_entries_stored_by_code_witness :
    trackItemStep ⟨[], []⟩ "7" placeEntry =
      .ok { TrackItems := [], Places := [("LFT", ⟨"LFT"⟩)] } ∧
    trackItemStep ⟨[], []⟩ "notanumber" placeEntry =
      trackItemStep ⟨[], []⟩ "7" placeEntry :=
  place_entries_stored_by_code ⟨[], []⟩ "7" "notanumber" placeEntry rfl rfl rfl

/-- The per-kind link rule as the spec states it: place, platform and text
items need nothing; points need reverse, next and previous; line,
invisible-link and signal items need next and previous; end items need
previous. -/
def linkRuleOK (ti : TrackItem) : Bool :=
  match ti.tiType with
  | .place | .platformItem | .textItem => true
  | .pointsItem => ti.hasReverse && ti.hasNext && ti.hasPrevious
  | .lineItem | .invisibleLinkItem | .signalItem => ti.hasNext && ti.hasPrevious
  | .endItem => ti.hasPrevious

/-- The first unresolved connection point of an item, in the per-kind
check order of the rule (reverse, then next, then previous). -/
def firstUnresolvedPoint (ti : TrackItem) : Point :=
  match ti.tiType with
  | .pointsItem =>
    if !ti.hasReverse then ti.reversePoint
    else if !ti.hasNext then ti.endPoint
    else ti.originPoint
  | .lineItem | .invisibleLinkItem | .signalItem =>
    if !ti.hasNext then ti.endPoint
    else ti.originPoint
  | _ => ti.originPoint

theorem checkItemLinks_none_iff (ti : TrackItem) :
    checkItemLinks ti = none ↔ linkRuleOK ti = true := by
  obtain ⟨tt, hn, hp, hr, o, ep, rp, n, ss⟩ := ti
  cases tt <;> cases hn <;> cases hp <;> cases hr <;>
    simp [checkItemLinks, linkRuleOK]

theorem checkItemLinks_violation (ti : TrackItem) (h : linkRuleOK ti = false) :
    checkItemLinks ti = some ⟨ti, firstUnresolvedPoint ti⟩ := by
  obtain ⟨tt, hn, hp, hr, o, ep, rp, n, ss⟩ := ti
  cases tt <;> cases hn <;> cases hp <;> cases hr <;>
    simp_all [checkItemLinks, linkRuleOK, firstUnresolvedPoint]

theorem checkLinks_none_iff_all (items : List TrackItem) :
    checkTrackItemsLinks items = none ↔ ∀ ti ∈ items, linkRuleOK ti = true := by
  induction items with
  | nil => simp [checkTrackItemsLinks]
  | cons hd tl ih =>
    simp only [checkTrackItemsLinks]
    cases h : checkItemLinks hd with
    | some e =>
      constructor
      · intro hc; exact absurd hc (by simp)
      · intro hall
        exact absurd ((checkItemLinks_none_iff hd).mpr (hall hd (by simp)))
          (by simp [h])
    | none =>
      have hr := (checkItemLinks_none_iff hd).mp h
      simp [ih, hr]

theorem checkLinks_first_violation (pre : List TrackItem) (ti : TrackItem)
    (post : List TrackItem) (hpre : ∀ t ∈ pre, linkRuleOK t = true)
    (hbad : linkRuleOK ti = false) :
    checkTrackItemsLinks (pre ++ ti :: post) = some ⟨ti, firstUnresolvedPoint ti⟩ := by
  induction pre with
  | nil =>
    simp [checkTrackItemsLinks, checkItemLinks_violation ti hbad]
  | cons hd tl ih =>
    have hhd : checkItemLinks hd = none :=
      (checkItemLinks_none_iff hd).mpr (hpre hd (by simp))
    simpa [checkTrackItemsLinks, hhd] using
      ih (fun t ht => hpre t (by simp [ht]))

/-- C2: network validation passes exactly when every item satisfies its
per-kind link rule, and on the first violating item (in iteration order)
it returns the link error naming that item and its first unresolved
connection point. -/
theorem checkTrackItemsLinks_correct (items : List TrackItem) :
    (checkTrackItemsLinks items = none ↔ ∀ ti ∈ items, linkRuleOK ti = true) ∧
    (∀ pre ti post, items = pre ++ ti :: post →
      (∀ t ∈ pre, linkRuleOK t = true) → linkRuleOK ti = false →
      checkTrackItemsLinks items = some ⟨ti, firstUnresolvedPoint ti⟩) :=
  ⟨checkLinks_none_iff_all items,
   fun pre ti post heq hpre hbad =>
     heq ▸ checkLinks_first_violation pre ti post hpre hbad⟩

/-- A points item linked forward but with an unresolved reverse link. -/
def pointsNoReverse : TrackItem :=
  { tiType := .pointsItem, hasNext := true, hasPrevious := true
    hasReverse := false, originPoint := ⟨0, 0⟩, endPoint := ⟨5, 0⟩
    reversePoint := ⟨5, 5⟩, tiID := 3, simSet := true }

/-- A fully linked line item. -/
def lineLinked : TrackItem :=
  { tiType := .lineItem, hasNext := true, hasPrevious := true
    hasReverse := false, originPoint := ⟨0, 0⟩, endPoint := ⟨5, 0⟩
    reversePoint := ⟨0, 0⟩, tiID := 1, simSet := true }

/-- Witness for C2: with a healthy line item first, validation stops at
the points item and cites its reverse connection point. -/
theorem checkTrackItemsLinks_correct_witness :
    checkTrackItemsLinks [lineLinked, pointsNoReverse] =
      some ⟨pointsNoReverse, ⟨5, 5⟩⟩ :=
  (checkTrackItemsLinks_correct [lineLinked, pointsNoReverse]).2
    [lineLinked] pointsNoReverse [] rfl (by decide) (by decide)

theorem trackItemStep_unknown (st : TrackItemsState) (k : String)
    (e : RawTrackEntry) (haux : e.auxOk = true)
    (hnot : (e.typeField.getD "") ∉ recognizedTags) :
    trackItemStep st k e =
      .error (.decodeError ("unknown TrackItem type: " ++ (e.typeField.getD ""))) := by
  simp only [recognizedTags, List.mem_cons, List.not_mem_nil, or_false,
    not_or] at hnot
  obtain ⟨h1, h2, h3, h4, h5, h6, h7, h8⟩ := hnot
  have htag : tiTypeTag? (e.typeField.getD "") = none := by
    simp [tiTypeTag?, h1, h2, h3, h4, h5, h6, h7]
  simp [trackItemStep, haux, htag, h8]

theorem decodeTrackItems_error_of_mem (entries : List (String × RawTrackEntry))
    (st : TrackItemsState) (k : String) (e : RawTrackEntry)
    (hmem : (k, e) ∈ entries)
    (hfail : ∀ st', ∃ m, trackItemStep st' k e = .error m) :
    ∃ m, decodeTrackItems st entries = .error m := by
  induction entries generalizing st with
  | nil => cases hmem
  | cons hd tl ih =>
    rcases List.mem_cons.mp hmem with heq | htl
    · obtain ⟨m, hm⟩ := hfail st
      exact ⟨m, by simp [← heq, decodeTrackItems, hm]⟩
    · obtain ⟨kh, eh⟩ := hd
      cases hstep : trackItemStep st kh eh with
      | error m => exact ⟨m, by simp [decodeTrackItems, hstep]⟩
      | ok st' =>
        obtain ⟨m, hm⟩ := ih st' htl
        exact ⟨m, by simp [decodeTrackItems, hstep, hm]⟩

theorem UnmarshalJSON_error_of_trackItems_error (raw : RawSim) (m : SimError)
    (h : decodeTrackItems ⟨[], []⟩ raw.TrackItems = .error m) :
    Simulation.UnmarshalJSON raw = .error m := by
  simp [Simulation.UnmarshalJSON, h]

/-- C4: an entry whose `__type__` is not one of the eight recognized
values makes the loop body return the unknown-type error (whatever the
state and key), and a document containing such an entry fails to decode. -/
theorem unknown_type_aborts_decode (raw : RawSim) (tiId : String)
    (e : RawTrackEntry) (hmem : (tiId, e) ∈ raw.TrackItems)
    (haux : e.auxOk = true)
    (hnot : (e.typeField.getD "") ∉ recognizedTags) :
    (∀ st k, trackItemStep st k e =
      .error (.decodeError ("unknown TrackItem type: " ++ (e.typeField.getD "")))) ∧
    ∃ m, Simulation.UnmarshalJSON raw = .error m := by
  have hstep := fun st k => trackItemStep_unknown st k e haux hnot
  refine ⟨hstep, ?_⟩
  obtain ⟨m, hm⟩ := decodeTrackItems_error_of_mem raw.TrackItems ⟨[], []⟩ tiId e
    hmem (fun st' => ⟨_, hstep st' tiId⟩)
  exact ⟨m, UnmarshalJSON_error_of_trackItems_error raw m hm⟩

/-- An entry declaring the unrecognized type "BufferStop". -/
def bogusTypeEntry : RawTrackEntry :=
  { auxOk := true, typeField := some "\"BufferStop\"", decodeOk := true
    hasNext := true, hasPrevious := true, hasReverse := false
    originPoint := ⟨0, 0⟩, endPoint := ⟨1, 0⟩, reversePoint := ⟨0, 0⟩
    placeCode := "" }

/-- A scenario holding only the unrecognized-type entry. -/
def rawSimBogusType : RawSim :=
  { TrackItems := [("4", bogusTypeEntry)], Options := ⟨0⟩, SignalLib := {}
    Routes := [], TrainTypes := [], Services := [], Trains := []
    MessageLogger := {} }

/-- Witness for C4: the "BufferStop" entry aborts the decode with the
unknown-type error. -/
theorem unknown_type_aborts_decode_witness :
    trackItemStep ⟨[], []⟩ "4" bogusTypeEntry =
      .error (.decodeError ("unknown TrackItem type: " ++ "\"BufferStop\"")) ∧
    ∃ m, Simulation.UnmarshalJSON rawSimBogusType = .error m :=
  ⟨(unknown_type_aborts_decode rawSimBogusType "4" bogusTypeEntry
      (by decide) rfl (by decide)).1 ⟨[], []⟩ "4",
   (unknown_type_aborts_decode rawSimBogusType "4" bogusTypeEntry
      (by decide) rfl (by decide)).2⟩

/-- C9: an entry with no `__type__` field at all reads the discriminator
as the empty raw string, takes the same default branch as an unrecognized
tag, and aborts the decode with the unknown-type error. -/
theorem missing_type_aborts_decode (raw : RawSim) (tiId : String)
    (e : RawTrackEntry) (hmem : (tiId, e) ∈ raw.TrackItems)
    (haux : e.auxOk = true) (htype : e.typeField = none) :
    (∀ st k, trackItemStep st k e =
      .error (.decodeError "unknown TrackItem type: ")) ∧
    ∃ m, Simulation.UnmarshalJSON raw = .error m := by
  have hnot : (e.typeField.getD "") ∉ recognizedTags := by
    rw [htype]; decide
  have hstep := fun st k => trackItemStep_unknown st k e haux hnot
  rw [htype] at hstep
  simp only [Option.getD_none, String.append_empty] at hstep
  refine ⟨hstep, ?_⟩
  obtain ⟨m, hm⟩ := decodeTrackItems_error_of_mem raw.TrackItems ⟨[], []⟩ tiId e
    hmem (fun st' => ⟨_, hstep st' tiId⟩)
  exact ⟨m, UnmarshalJSON_error_of_trackItems_error raw m hm⟩

/-- An entry carrying no `__type__` field. -/
def noTypeEntry : RawTrackEntry :=
  { auxOk := true, typeField := none, decodeOk := true
    hasNext := true, hasPrevious := true, hasReverse := false
    originPoint := ⟨0, 0⟩, endPoint := ⟨1, 0⟩, reversePoint := ⟨0, 0⟩
    placeCode := "" }

/-- A scenario holding only the discriminator-less entry. -/
def rawSimNoType : RawSim :=
  { TrackItems := [("9", noTypeEntry)], Options := ⟨0⟩, SignalLib := {}
    Routes := [], TrainTypes := [], Services := [], Trains := []
    MessageLogger := {} }

/-- Witness for C9: the entry with no discriminator aborts the decode. -/
theorem missing_type_aborts_decode_witness :
    trackItemStep ⟨[], []⟩ "9" noTypeEntry =
      .error (.decodeError "unknown TrackItem type: ") ∧
    ∃ m, Simulation.UnmarshalJSON rawSimNoType = .error m :=
  ⟨(missing_type_aborts_decode rawSimNoType "9" noTypeEntry
      (by decide) rfl rfl).1 ⟨[], []⟩ "9",
   (missing_type_aborts_decode rawSimNoType "9" noTypeEntry
      (by decide) rfl rfl).2⟩

/-- Whether the loop stores a track item for this entry: a recognized
non-Place tag, a readable aux map, a decodable substructure, and a key
that parses. -/
def entryInserts (tiId : String) (e : RawTrackEntry) : Bool :=
  e.auxOk && (tiTypeTag? (e.typeField.getD "")).isSome && e.decodeOk &&
    (atoi? (trimQuoteChars tiId)).isSome

/-- The integer ids assigned by the loop, in entry order. -/
def insertedIds (entries : List (String × RawTrackEntry)) : List Int :=
  (entries.filter (fun p => entryInserts p.1 p.2)).map
    (fun p => (atoi? (trimQuoteChars p.1)).getD 0)

theorem tiTypeTag?_place : tiTypeTag? "\"Place\"" = none := by decide

theorem trackItemStep_ok_trackItems {st : TrackItemsState} {k : String}
    {e : RawTrackEntry} {st' : TrackItemsState}
    (h : trackItemStep st k e = .ok st') :
    (entryInserts k e = true ∧ ∃ v, st'.TrackItems =
        mapInsert st.TrackItems ((atoi? (trimQuoteChars k)).getD 0) v) ∨
    (entryInserts k e = false ∧ st'.TrackItems = st.TrackItems) := by
  cases haux : e.auxOk with
  | false => simp [trackItemStep, haux] at h
  | true =>
    cases htag : tiTypeTag? (e.typeField.getD "") with
    | none =>
      by_cases hp : (e.typeField.getD "") = "\"Place\""
      · cases hdec : e.decodeOk with
        | false => simp [trackItemStep, haux, hp, hdec, tiTypeTag?_place] at h
        | true =>
          refine Or.inr ⟨by simp [entryInserts, htag], ?_⟩
          simp [trackItemStep, haux, hp, hdec, tiTypeTag?_place] at h
          rw [← h]
      · simp [trackItemStep, haux, htag, hp] at h
    | some kind =>
      cases hdec : e.decodeOk with
      | false =>
        refine Or.inr ⟨by simp [entryInserts, hdec], ?_⟩
        simp [trackItemStep, unmarshalItem, haux, htag, hdec] at h
        rw [← h]
      | true =>
        cases hat : atoi? (trimQuoteChars k) with
        | none =>
          refine Or.inr ⟨by simp [entryInserts, hat], ?_⟩
          simp [trackItemStep, unmarshalItem, haux, htag, hdec, hat] at h
          rw [← h]
        | some n =>
          refine Or.inl ⟨by simp [entryInserts, haux, htag, hdec, hat],
            { e.toItem kind with tiID := n, simSet := true }, ?_⟩
          simp [trackItemStep, unmarshalItem, haux, htag, hdec, hat] at h
          rw [← h]
          simp [hat]

theorem mapInsert_keys_of_not_mem {α β : Type} [DecidableEq α]
    (m : List (α × β)) (k : α) (v : β) (h : k ∉ m.map Prod.fst) :
    (mapInsert m k v).map Prod.fst = m.map Prod.fst ++ [k] := by
  have hany : (m.any fun p => p.1 = k) = false := by
    simp only [List.any_eq_false, decide_eq_true_eq]
    intro p hp hpk
    exact h (List.mem_map.mpr ⟨p, hp, hpk⟩)
  simp [mapInsert, hany]

theorem decodeTrackItems_keys (entries : List (String × RawTrackEntry)) :
    ∀ st st' : TrackItemsState, decodeTrackItems st entries = .ok st' →
    (insertedIds entries).Nodup →
    (∀ i ∈ insertedIds entries, i ∉ st.TrackItems.map Prod.fst) →
    st'.TrackItems.map Prod.fst = st.TrackItems.map Prod.fst ++ insertedIds entries := by
  induction entries with
  | nil =>
    intro st st' h _ _
    simp [decodeTrackItems] at h
    rw [← h]
    simp [insertedIds]
  | cons hd tl ih =>
    obtain ⟨k, e⟩ := hd
    intro st st' h hnodup hfresh
    cases hstep : trackItemStep st k e with
    | error m => simp [decodeTrackItems, hstep] at h
    | ok st1 =>
      simp only [decodeTrackItems, hstep] at h
      rcases trackItemStep_ok_trackItems hstep with ⟨hins, v, hkeys⟩ | ⟨hnoins, hkeys⟩
      · have hconsids : insertedIds ((k, e) :: tl) =
            ((atoi? (trimQuoteChars k)).getD 0) :: insertedIds tl := by
          simp [insertedIds, hins]
        rw [hconsids] at hnodup hfresh ⊢
        have hid0 : ((atoi? (trimQuoteChars k)).getD 0) ∉ st.TrackItems.map Prod.fst :=
          hfresh _ (by simp)
        have hkeys1 : st1.TrackItems.map Prod.fst =
            st.TrackItems.map Prod.fst ++ [(atoi? (trimQuoteChars k)).getD 0] := by
          rw [hkeys]
          exact mapInsert_keys_of_not_mem _ _ _ hid0
        have hfresh1 : ∀ i ∈ insertedIds tl, i ∉ st1.TrackItems.map Prod.fst := by
          intro i hi
          rw [hkeys1]
          simp only [List.mem_append, List.mem_singleton, not_or]
          refine ⟨hfresh i (by simp [hi]), ?_⟩
          intro heq
          exact (List.nodup_cons.mp hnodup).1 (heq ▸ hi)
        have htl := ih st1 st' h (List.nodup_cons.mp hnodup).2 hfresh1
        rw [htl, hkeys1]
        simp
      · have hconsids : insertedIds ((k, e) :: tl) = insertedIds tl := by
          simp [insertedIds, hnoins]
        rw [hconsids] at hnodup hfresh ⊢
        have htl := ih st1 st' h hnodup (by
          intro i hi
          rw [hkeys]
          exact hfresh i hi)
        rw [htl, hkeys]

/-- C8 (amended): when the ids parsed from the keys of the entries that
store a track item are pairwise distinct, no entry overwrites another:
the final track-item mapping binds exactly those ids, in entry order. -/
theorem distinct_ids_no_overwrite (entries : List (String × RawTrackEntry))
    (st : TrackItemsState) (hok : decodeTrackItems ⟨[], []⟩ entries = .ok st)
    (hnodup : (insertedIds entries).Nodup) :
    st.TrackItems.map Prod.fst = insertedIds entries := by
  have h := decodeTrackItems_keys entries ⟨[], []⟩ st hok hnodup (by simp)
  simpa using h

/-- An EndItem entry with a resolved previous link, at a chosen origin. -/
def endEntry (o : Point) : RawTrackEntry :=
  { auxOk := true, typeField := some "\"EndItem\"", decodeOk := true
    hasNext := false, hasPrevious := true, hasReverse := false
    originPoint := o, endPoint := ⟨0, 0⟩, reversePoint := ⟨0, 0⟩
    placeCode := "" }

/-- Witness for C8 (amended): keys "1" and "2" parse to distinct ids and
both items survive in the mapping. -/
theorem distinct_ids_no_overwrite_witness :
    ∃ st, decodeTrackItems ⟨[], []⟩
        [("1", endEntry ⟨0, 0⟩), ("2", endEntry ⟨1, 1⟩)] = .ok st ∧
      st.TrackItems.map Prod.fst = [1, 2] := by
  obtain ⟨st, hok⟩ : ∃ st, decodeTrackItems ⟨[], []⟩
      [("1", endEntry ⟨0, 0⟩), ("2", endEntry ⟨1, 1⟩)] = .ok st := ⟨_, rfl⟩
  refine ⟨st, hok, ?_⟩
  rw [distinct_ids_no_overwrite _ st hok (by decide)]
  decide

/-- The scenario with the two distinct keys "1" and "01": both parse to
the integer id 1. -/
def rawSimDupIds : RawSim :=
  { TrackItems := [("1", endEntry ⟨0, 0⟩), ("01", endEntry ⟨1, 1⟩)]
    Options := ⟨0⟩, SignalLib := {}, Routes := [], TrainTypes := []
    Services := [], Trains := [], MessageLogger := {} }

/-- Counterexample to C8 as stated: the distinct keys "1" and "01" both
parse to the id 1, the whole decode nevertheless succeeds, and the second
entry has overwritten the first (one binding remains out of two decoded
track-item entries). -/
theorem duplicate_parsed_ids_counterexample :
    ("1" : String) ≠ "01" ∧
    atoi? (trimQuoteChars "1") = some 1 ∧
    atoi? (trimQuoteChars "01") = some 1 ∧
    entryInserts "1" (endEntry ⟨0, 0⟩) = true ∧
    entryInserts "01" (endEntry ⟨1, 1⟩) = true ∧
    ∃ sim, Simulation.UnmarshalJSON rawSimDupIds = .ok sim ∧
      sim.TrackItems.length = 1 :=
  ⟨by decide, by decide, by decide, by decide, by decide, ⟨_, rfl, rfl⟩⟩

theorem decodeRoutes_bad_key (pre : List (String × Route))
    (acc : List (Int × Route)) (effs : List Route) (num : String)
    (route : Route) (rest : List (String × Route))
    (hpre : ∀ p ∈ pre, (atoi? p.1).isSome = true) (hbad : atoi? num = none) :
    ∃ effs', decodeRoutes acc effs (pre ++ (num, route) :: rest) =
      (effs ++ effs' ++ [Route.Initialize route.setSimulation],
       .error (.decodeError ("routeNum : `" ++ num ++ "` is invalid"))) := by
  induction pre generalizing acc effs with
  | nil =>
    refine ⟨[], ?_⟩
    simp [decodeRoutes, hbad]
  | cons hd tl ih =>
    obtain ⟨knum, kroute⟩ := hd
    obtain ⟨n, hn⟩ : ∃ n, atoi? knum = some n := by
      have := hpre (knum, kroute) (by simp)
      exact Option.isSome_iff_exists.mp this
    obtain ⟨effs', heq⟩ := ih
      (mapInsert acc n (Route.Initialize kroute.setSimulation))
      (effs ++ [Route.Initialize kroute.setSimulation])
      (fun p hp => hpre p (by simp [hp]))
    refine ⟨Route.Initialize kroute.setSimulation :: effs', ?_⟩
    have hstep : decodeRoutes acc effs ((knum, kroute) :: (tl ++ (num, route) :: rest)) =
        decodeRoutes (mapInsert acc n (Route.Initialize kroute.setSimulation))
          (effs ++ [Route.Initialize kroute.setSimulation])
          (tl ++ (num, route) :: rest) := by
      simp [decodeRoutes, hn]
    rw [List.cons_append, hstep, heq]
    simp

/-- C10: a route entry whose key fails integer parsing aborts with the
invalid-routeNum error, but only after the loop has already assigned the
route's simulation back-reference and run its initialization: the mutated
route is the last entry of the loop's side-effect trace, and a scenario
reaching the routes stage returns exactly that error. -/
theorem route_side_effects_before_key_check (pre : List (String × Route))
    (num : String) (route : Route) (rest : List (String × Route)) (raw : RawSim)
    (hpre : ∀ p ∈ pre, (atoi? p.1).isSome = true) (hbad : atoi? num = none) :
    (∃ effs, decodeRoutes [] [] (pre ++ (num, route) :: rest) =
        (effs ++ [Route.Initialize route.setSimulation],
         .error (.decodeError ("routeNum : `" ++ num ++ "` is invalid"))) ∧
      (Route.Initialize route.setSimulation).simSet = true ∧
      (Route.Initialize route.setSimulation).initialized = true) ∧
    (raw.TrackItems = [] → raw.Routes = pre ++ (num, route) :: rest →
      Simulation.UnmarshalJSON raw =
        .error (.decodeError ("routeNum : `" ++ num ++ "` is invalid"))) := by
  obtain ⟨effs', heq⟩ := decodeRoutes_bad_key pre [] [] num route rest hpre hbad
  constructor
  · exact ⟨effs', by simpa using heq, rfl, rfl⟩
  · intro hti hroutes
    simp [Simulation.UnmarshalJSON, hti, hroutes, decodeTrackItems,
      checkTrackItemsLinks, heq]

/-- A scenario whose only route sits under the unparseable key "x". -/
def rawSimBadRoute : RawSim :=
  { TrackItems := [], Options := ⟨0⟩, SignalLib := {}
    Routes := [("x", {})], TrainTypes := [], Services := [], Trains := []
    MessageLogger := {} }

/-- Witness for C10: the route under key "x" is mutated and the decode
then aborts with the invalid-routeNum error. -/
theorem route_side_effects_before_key_check_witness :
    (∃ effs, decodeRoutes [] [] [("x", ({} : Route))] =
        (effs ++ [Route.Initialize (Route.setSimulation {})],
         .error (.decodeError ("routeNum : `" ++ "x" ++ "` is invalid"))) ∧
      (Route.Initialize (Route.setSimulation {})).simSet = true ∧
      (Route.Initialize (Route.setSimulation {})).initialized = true) ∧
    Simulation.UnmarshalJSON rawSimBadRoute =
      .error (.decodeError ("routeNum : `" ++ "x" ++ "` is invalid")) :=
  ⟨(route_side_effects_before_key_check [] "x" {} [] rawSimBadRoute
      (by simp) (by decide)).1,
   (route_side_effects_before_key_check [] "x" {} [] rawSimBadRoute
      (by simp) (by decide)).2 rfl rfl⟩

end TS2
